import Mathlib

/-!
Verification of the business-card-analyzer backend's ingestion and retrieval
core against its specification.

Python strings are modelled as `List Char` (a Python `str` is a sequence of
code points, and all slicing in the source is by code point).  Pure helper
functions of the source files `upsert_topics.py`, `upsert.py` and `main.py`
are translated directly; external collaborators (OpenAI embeddings, Pinecone,
Google Custom Search, the filesystem) are passed in as explicit parameters.
-/

/-- Embeds Python's `str(n)` for a natural number: decimal digits, most
significant first.  Fueled helper; the fuel is always sufficient at `n + 1`. -/
def natToDecGo : Nat → Nat → List Char
  | 0, _ => []
  | fuel + 1, n =>
    if n < 10 then [Char.ofNat (48 + n)]
    else natToDecGo fuel (n / 10) ++ [Char.ofNat (48 + n % 10)]

/-- Python `str(n)` for `n : Nat`. -/
def natToDec (n : Nat) : List Char := natToDecGo (n + 1) n

/-- Left inverse of `natToDec`: reads a decimal digit string back. -/
def decodeDec (l : List Char) : Nat := l.foldl (fun a c => 10 * a + (c.toNat - 48)) 0

/-- From `upsert_topics.py` / `upsert.py`, `chunk_text`:
`[text[i:i + max_chars] for i in range(0, len(text), max_chars)]`.
`range(0, len, m)` for `m > 0` enumerates `k * m` for `k < ceil(len / m)`,
and `text[i:i+m]` is `(text.drop i).take m`.  (For `m = 0` Python raises
`ValueError`; here the count `(len + 0 - 1) / 0` is `0`, so the result is `[]`;
every claim restricts to `m > 0`.) -/
def chunk_text (text : List Char) (max_chars : Nat) : List (List Char) :=
  (List.range ((text.length + max_chars - 1) / max_chars)).map
    (fun k => (text.drop (k * max_chars)).take max_chars)

/-- Python `str.lower()` on one character (ASCII case, as used for the
`.md` extension check). -/
def pyLower (c : Char) : Char :=
  if 'A' ≤ c ∧ c ≤ 'Z' then Char.ofNat (c.toNat + 32) else c

/-- Embeds `fname.lower().endswith(".md")` from the ingestion loops. -/
def endsWithMd (fname : List Char) : Bool :=
  ['.', 'm', 'd'].isSuffixOf (fname.map pyLower)

/-- Python whitespace test used by `str.strip()` (ASCII whitespace; the
source texts are ASCII/Japanese prose and no other whitespace occurs). -/
def isPySpace (c : Char) : Bool :=
  c = ' ' || c = '\t' || c = '\n' || c = '\x0d' || c = Char.ofNat 11 || c = Char.ofNat 12

/-- Python `str.strip()`: drop leading and trailing whitespace. -/
def pyStrip (l : List Char) : List Char :=
  ((l.dropWhile isPySpace).reverse.dropWhile isPySpace).reverse

/-- One pass of `re.sub(r"<[^>]+>", "", s)`.  The regex matches a `<`, one or
more non-`>` characters, then the next `>`; matches are removed left to right.
State: `none` = scanning outside a candidate match; `some buf` = inside a
candidate that started at a `<`, with `buf` the (reversed) characters read
since that `<`.  On `>`: a non-empty `buf` completes a match (dropped); an
empty `buf` means `<>`, which the regex does not match, so both characters
stay.  At end of input an open candidate never matched, so its characters
stay (no `>` remains, so no match could start inside it either). -/
def stripTagsGo : Option (List Char) → List Char → List Char
  | none, [] => []
  | some buf, [] => '<' :: buf.reverse
  | none, c :: rest =>
    if c = '<' then stripTagsGo (some []) rest else c :: stripTagsGo none rest
  | some buf, c :: rest =>
    if c = '>' then
      if buf = [] then '<' :: '>' :: stripTagsGo none rest
      else stripTagsGo none rest
    else stripTagsGo (some (c :: buf)) rest

/-- Embeds `re.sub(r"<[^>]+>", "", s)` from `markdown_to_plain`. -/
def stripTags (l : List Char) : List Char := stripTagsGo none l

/-- From `upsert_topics.py` / `upsert.py`, `markdown_to_plain`:
`re.sub(r"<[^>]+>", "", md_text).replace("\n", " ").strip()`. -/
def markdown_to_plain (md_text : List Char) : List Char :=
  pyStrip ((stripTags md_text).map (fun c => if c = '\n' then ' ' else c))

-- ---------------------------------------------------------------------------
-- Basic facts about natToDec
-- ---------------------------------------------------------------------------

theorem natToDecGo_stable (fuel : Nat) : ∀ fuel' n, n < fuel → n < fuel' →
    natToDecGo fuel n = natToDecGo fuel' n := by
  induction fuel with
  | zero => intro fuel' n h; omega
  | succ f ih =>
    intro fuel' n h h'
    cases fuel' with
    | zero => omega
    | succ f' =>
      simp only [natToDecGo]
      by_cases h10 : n < 10
      · simp [h10]
      · simp only [h10, if_false]
        have hd : n / 10 < n := Nat.div_lt_self (by omega) (by omega)
        rw [ih f' (n / 10) (by omega) (by omega)]

theorem natToDec_eq (n : Nat) : natToDec n =
    if n < 10 then [Char.ofNat (48 + n)]
    else natToDec (n / 10) ++ [Char.ofNat (48 + n % 10)] := by
  show natToDecGo (n + 1) n = _
  by_cases h10 : n < 10
  · simp [natToDecGo, h10]
  · simp only [natToDecGo, h10, if_false]
    have hd : n / 10 < n := Nat.div_lt_self (by omega) (by omega)
    rw [natToDecGo_stable n (n / 10 + 1) (n / 10) (by omega) (by omega)]
    rfl

theorem toNat_digitChar (d : Nat) (hd : d < 10) : (Char.ofNat (48 + d)).toNat = 48 + d := by
  interval_cases d <;> decide

theorem isDigit_digitChar (d : Nat) (hd : d < 10) : (Char.ofNat (48 + d)).isDigit = true := by
  interval_cases d <;> decide

theorem decodeDec_natToDec (n : Nat) : decodeDec (natToDec n) = n := by
  induction n using Nat.strong_induction_on with
  | _ n ih =>
    rw [natToDec_eq]
    by_cases h10 : n < 10
    · simp only [h10, if_true, decodeDec, List.foldl]
      rw [toNat_digitChar n h10]; omega
    · simp only [h10, if_false, decodeDec, List.foldl_append, List.foldl]
      have hd : n / 10 < n := Nat.div_lt_self (by omega) (by omega)
      have := ih (n / 10) hd
      simp only [decodeDec] at this
      rw [this, toNat_digitChar (n % 10) (Nat.mod_lt n (by omega))]
      omega

theorem natToDec_inj {m n : Nat} (h : natToDec m = natToDec n) : m = n := by
  have := decodeDec_natToDec m
  rw [h, decodeDec_natToDec] at this
  omega

theorem natToDec_ne_nil (n : Nat) : natToDec n ≠ [] := by
  rw [natToDec_eq]
  by_cases h10 : n < 10 <;> simp [h10]

theorem natToDec_digits (n : Nat) : ∀ c ∈ natToDec n, c.isDigit = true := by
  induction n using Nat.strong_induction_on with
  | _ n ih =>
    rw [natToDec_eq]
    by_cases h10 : n < 10
    · simp only [h10, if_true, List.mem_singleton]
      rintro c rfl; exact isDigit_digitChar n h10
    · simp only [h10, if_false, List.mem_append, List.mem_singleton]
      rintro c (hc | rfl)
      · exact ih (n / 10) (Nat.div_lt_self (by omega) (by omega)) c hc
      · exact isDigit_digitChar (n % 10) (Nat.mod_lt n (by omega))

-- ---------------------------------------------------------------------------
-- Basic facts about chunk_text
-- ---------------------------------------------------------------------------

theorem chunk_text_length (text : List Char) (m : Nat) :
    (chunk_text text m).length = (text.length + m - 1) / m := by
  simp [chunk_text]

theorem chunk_text_get (text : List Char) (m k : Nat)
    (h : k < (chunk_text text m).length) :
    (chunk_text text m).get ⟨k, h⟩ = (text.drop (k * m)).take m := by
  simp [chunk_text]

theorem chunk_text_flatten (text : List Char) (m : Nat) (hm : 0 < m) :
    (chunk_text text m).flatten = text := by
  have key : ∀ j, j ≤ (text.length + m - 1) / m →
      ((List.range j).map (fun k => (text.drop (k * m)).take m)).flatten = text.take (j * m) := by
    intro j
    induction j with
    | zero => simp
    | succ i ih =>
      intro hj
      rw [List.range_succ, List.map_append, List.flatten_append, ih (by omega)]
      simp only [List.map_cons, List.map_nil, List.flatten_cons, List.flatten_nil,
        List.append_nil]
      rw [Nat.succ_mul, List.take_add]
  have hcount : text.length ≤ m * ((text.length + m - 1) / m) := by
    have h1 := Nat.div_add_mod (text.length + m - 1) m
    have h2 := Nat.mod_lt (text.length + m - 1) hm
    rcases Nat.eq_zero_or_pos text.length with h0 | h0
    · simp [h0]
    · omega
  have := key ((text.length + m - 1) / m) (le_refl _)
  rw [List.take_of_length_le (by rw [Nat.mul_comm]; exact hcount)] at this
  simpa [chunk_text] using this

-- ---------------------------------------------------------------------------
-- Vector records and the two ingestion scripts
-- ---------------------------------------------------------------------------

/-- A vector dict built by `upsert_topics.py`'s `process_md`:
`{"id": ..., "values": ..., "metadata": {"text", "source", "chunk_index"}}`.
The embedding payload type is abstract (`V`): its value comes from the
external OpenAI call and no claim depends on it. -/
structure TopicsVector (V : Type) where
  id : List Char
  values : V
  md_text : List Char
  md_source : List Char
  md_chunk_index : Nat
  deriving DecidableEq

/-- A vector dict built by `upsert.py`'s `process_md`: same as `TopicsVector`
plus `"data_type"` in both the id and the metadata. -/
structure UpsertVector (V : Type) where
  id : List Char
  values : V
  md_text : List Char
  md_source : List Char
  md_chunk_index : Nat
  md_data_type : List Char
  deriving DecidableEq

namespace UpsertTopics

/-- From `upsert_topics.py`, `process_md` (pure core: the file's text is passed in
place of the `open`/`read`; `embed` stands for `embed_text` with its OpenAI
client).  Ids are `f"{file_name}-chunk{idx+1}"`; the metadata has no category
field. -/
def process_md {V : Type} (embed : List Char → V) (file_name md_text : List Char) :
    List (TopicsVector V) :=
  let plain_text := markdown_to_plain md_text
  let chunks := chunk_text plain_text 500
  chunks.enum.map (fun p =>
    { id := file_name ++ "-chunk".data ++ natToDec (p.1 + 1)
      values := embed p.2
      md_text := p.2
      md_source := file_name
      md_chunk_index := p.1 + 1 })

/-- From `upsert_topics.py`, the per-file loop of `upsert_topics()`:
`os.listdir(MD_DIR)` is modelled as the list `files` of
(file name, file content) pairs in listing order; names not passing
`fname.lower().endswith(".md")` are skipped. -/
def collect_vectors {V : Type} (embed : List Char → V)
    (files : List (List Char × List Char)) : List (TopicsVector V) :=
  (files.filter (fun f => endsWithMd f.1)).flatMap
    (fun f => process_md embed f.1 f.2)

/-- From `upsert_topics.py`, `upsert_topics()` with the directory made explicit:
`none` models an absent `topics` directory, where `os.listdir(MD_DIR)`
raises `FileNotFoundError` (there is no existence check in this file);
otherwise the collected vectors are upserted. -/
def upsert_topics {V : Type} (embed : List Char → V)
    (dir : Option (List (List Char × List Char))) :
    Except (List Char) (List (TopicsVector V)) :=
  match dir with
  | none => .error "FileNotFoundError".data
  | some files => .ok (collect_vectors embed files)

end UpsertTopics

namespace Upsert

/-- From `upsert.py`, `process_md`: ids are
`f"{data_type}-{file_name}-chunk{idx+1}"` and the metadata carries
`data_type`. -/
def process_md {V : Type} (embed : List Char → V)
    (file_name md_text data_type : List Char) : List (UpsertVector V) :=
  let plain_text := markdown_to_plain md_text
  let chunks := chunk_text plain_text 500
  chunks.enum.map (fun p =>
    { id := data_type ++ "-".data ++ file_name ++ "-chunk".data ++ natToDec (p.1 + 1)
      values := embed p.2
      md_text := p.2
      md_source := file_name
      md_chunk_index := p.1 + 1
      md_data_type := data_type })

/-- From `upsert.py`, `process_directory`: `none` models `os.path.exists(directory)`
false, where the function logs a warning and returns `[]`; otherwise the
`.md` files of the listing are processed. -/
def process_directory {V : Type} (embed : List Char → V) (data_type : List Char)
    (dir : Option (List (List Char × List Char))) : List (UpsertVector V) :=
  match dir with
  | none => []
  | some files =>
    (files.filter (fun f => endsWithMd f.1)).flatMap
      (fun f => process_md embed f.1 f.2 data_type)

end Upsert

-- ---------------------------------------------------------------------------
-- main.py: configuration, tools and the /upload validation step
-- ---------------------------------------------------------------------------

namespace Main

/-- From `main.py`: `os.getenv(name, default)` over an environment modelled as an
association list. -/
def getenv (env : List (List Char × List Char)) (name default : List Char) : List Char :=
  (env.lookup name).getD default

/-- From `main.py` line 37: `EMBEDDING_MODEL = os.getenv("EMBEDDING_MODEL",
"text-embedding-3-small")` — the model name used by `embed_query`, i.e. by
the retrieval/query path. -/
def EMBEDDING_MODEL (env : List (List Char × List Char)) : List Char :=
  getenv env "EMBEDDING_MODEL".data "text-embedding-3-small".data

/-- From `upsert_topics.py` line 50: the model name hard-coded in `embed_text`,
i.e. the one used by the ingestion path that `main.py` runs at startup. -/
def ingestion_embedding_model : List Char := "text-embedding-ada-002".data

/-- A Pinecone query match as consumed by `search_topic_from_index`: only
`m.metadata["text"]` is read. -/
structure QueryMatch where
  md_text : List Char
  deriving DecidableEq

/-- From `main.py`, `search_topic_from_index`.  `embed_query` and `index.query`
are external calls that can raise; they are passed in as `Except`-valued
functions over an abstract vector type `V`.  The source has no
try/except: a raise in either call propagates (the `Except` bind), and only
a successful empty match list yields the fallback string. -/
def search_topic_from_index {V : Type} (embed_query : List Char → Except (List Char) V)
    (query : V → Nat → Except (List Char) (List QueryMatch)) (TOP_K : Nat)
    (q : List Char) : Except (List Char) (List Char) := do
  let vec ← embed_query q
  let ms ← query vec TOP_K
  if ms.isEmpty then
    pure "関連トピックが見つかりませんでした。".data
  else
    pure (List.intercalate "\n---\n".data (ms.map QueryMatch.md_text))

/-- A Google Custom Search item as consumed by the lookup tools:
`{"title": ..., "link": ...}`. -/
structure CSEItem where
  title : List Char
  link : List Char
  deriving DecidableEq

/-- From `main.py`, `search_name_and_company`.  The external search collaborator
(`svc.cse().list(q=..., num=...)`) is the parameter `cse`.  The guard is
`if not name and not company_name`: the early fallback fires only when BOTH
strings are empty; otherwise the collaborator is invoked with
`f"{name} {company_name}".strip()`. -/
def search_name_and_company (cse : List Char → Nat → List CSEItem)
    (CSE_SEARCH_NUMBER : Nat) (name company_name : List Char) : List Char :=
  if name = [] ∧ company_name = [] then
    "検索結果がありませんでした。名前と会社名が指定されていません。".data
  else
    let items := cse (pyStrip (name ++ [' '] ++ company_name)) CSE_SEARCH_NUMBER
    if items = [] then
      name ++ " / ".data ++ company_name ++ " に関連する情報は見つかりませんでした。".data
    else
      List.intercalate ['\n']
        (items.map (fun i => "- ".data ++ i.title ++ ": ".data ++ i.link))

/-- From `main.py` line 237: `required_fields = ["name", "company_name", "position"]`. -/
def required_fields : List (List Char) :=
  ["name".data, "company_name".data, "position".data]

/-- Outcome of the `/upload` handler after extraction succeeded: either the
validation-error dict or the agent's summary. -/
inductive UploadOutcome where
  | error (msg : List Char)
  | summary (text : List Char)
  deriving DecidableEq

/-- From `main.py`, `/upload` handler, after `extract_information` returned the
dict whose keys are `info_keys`: if any required field is absent the handler
returns the error dict whose message joins ALL of `required_fields` with
`", "`; only otherwise does it build the prompt and call the agent (the
agent's run is abstracted as the resulting summary text `agent_result`). -/
def upload_validate (agent_result : List Char) (info_keys : List (List Char)) :
    UploadOutcome :=
  if required_fields.all (fun field => info_keys.contains field) then
    .summary agent_result
  else
    .error ("名刺情報から以下の項目を取得できませんでした: ".data ++
      List.intercalate ", ".data required_fields)

/-- The fields a dict with keys `info_keys` is actually missing (the notion
the spec's "naming exactly the missing field(s)" refers to). -/
def missing_fields (info_keys : List (List Char)) : List (List Char) :=
  required_fields.filter (fun field => ¬ info_keys.contains field)

end Main

-- ---------------------------------------------------------------------------
-- Claims
-- ---------------------------------------------------------------------------

/-- C1: for every text `T` and every `max_chars M > 0`, `chunk_text T M`
concatenates back to `T` exactly, every chunk has length at most `M`, the
number of chunks is `ceil (|T| / M)` (i.e. `(|T| + M - 1) / M`), and the
empty text yields the empty sequence. -/
theorem C1_chunk_text_correct (T : List Char) (M : Nat) (hM : 0 < M) :
    (chunk_text T M).flatten = T ∧
    (∀ c ∈ chunk_text T M, c.length ≤ M) ∧
    (chunk_text T M).length = (T.length + M - 1) / M ∧
    (T = [] → chunk_text T M = []) := by
  refine ⟨chunk_text_flatten T M hM, ?_, chunk_text_length T M, ?_⟩
  · intro c hc
    simp only [chunk_text, List.mem_map, List.mem_range] at hc
    obtain ⟨k, -, rfl⟩ := hc
    simp [Nat.min_le_left M]
  · rintro rfl
    simp [chunk_text, Nat.div_eq_of_lt (by omega : M - 1 < M)]

/-- Witness for C1 at `T = "hello"`, `M = 2`. -/
theorem C1_chunk_text_correct_witness : 0 < 2 ∧
    ((chunk_text "hello".data 2).flatten = "hello".data ∧
    (∀ c ∈ chunk_text "hello".data 2, c.length ≤ 2) ∧
    (chunk_text "hello".data 2).length = ("hello".data.length + 2 - 1) / 2 ∧
    ("hello".data = [] → chunk_text "hello".data 2 = [])) :=
  ⟨by decide, C1_chunk_text_correct "hello".data 2 (by decide)⟩

/-- C10: for every text and `M > 0`, chunk `k` (0-based) of `chunk_text T M`
is exactly the contiguous slice `T[k*M : k*M + M]`, it is non-empty, and
every chunk except possibly the last has length exactly `M`. -/
theorem C10_chunk_slices (T : List Char) (M : Nat) (hM : 0 < M) :
    ∀ k (h : k < (chunk_text T M).length),
      (chunk_text T M).get ⟨k, h⟩ = (T.drop (k * M)).take M ∧
      (chunk_text T M).get ⟨k, h⟩ ≠ [] ∧
      (k + 1 < (chunk_text T M).length → ((chunk_text T M).get ⟨k, h⟩).length = M) := by
  intro k h
  have hlen := chunk_text_length T M
  have hget := chunk_text_get T M k h
  have hT : 0 < T.length := by
    by_contra h0
    have hT0 : T.length = 0 := by omega
    rw [hlen, hT0, Nat.div_eq_of_lt (by omega : 0 + M - 1 < M)] at h
    omega
  have hkM : k * M < T.length := by
    have h1 : k + 1 ≤ (T.length + M - 1) / M := by omega
    have h2 : (k + 1) * M ≤ T.length + M - 1 := (Nat.le_div_iff_mul_le hM).mp h1
    have h3 : (k + 1) * M = k * M + M := by ring
    omega
  refine ⟨hget, ?_, ?_⟩
  · rw [hget]
    intro hnil
    have := congrArg List.length hnil
    simp only [List.length_take, List.length_drop, List.length_nil] at this
    omega
  · intro hk1
    have h1 : k + 2 ≤ (T.length + M - 1) / M := by omega
    have h2 : (k + 2) * M ≤ T.length + M - 1 := (Nat.le_div_iff_mul_le hM).mp h1
    have h3 : (k + 2) * M = k * M + M + M := by ring
    rw [hget]
    simp only [List.length_take, List.length_drop]
    omega

/-- Witness for C10 at `T = "hello"`, `M = 2`, `k = 0`. -/
theorem C10_chunk_slices_witness : 0 < 2 ∧ 0 < (chunk_text "hello".data 2).length ∧
    ((chunk_text "hello".data 2).get ⟨0, by decide⟩ = ("hello".data.drop (0 * 2)).take 2 ∧
    (chunk_text "hello".data 2).get ⟨0, by decide⟩ ≠ [] ∧
    (0 + 1 < (chunk_text "hello".data 2).length →
      ((chunk_text "hello".data 2).get ⟨0, by decide⟩).length = 2)) :=
  ⟨by decide, by decide, C10_chunk_slices "hello".data 2 (by decide) 0 (by decide)⟩

/-- C2 counterexample: under the default environment (no `EMBEDDING_MODEL`
variable set), the query path (`main.py`, `embed_query`) uses
`"text-embedding-3-small"` while the ingestion path run at startup
(`upsert_topics.py`, `embed_text`) hard-codes `"text-embedding-ada-002"`:
the two paths do not invoke the same embedding model. -/
theorem C2_models_differ_by_default :
    Main.EMBEDDING_MODEL [] ≠ Main.ingestion_embedding_model ∧
    Main.EMBEDDING_MODEL [] = "text-embedding-3-small".data ∧
    Main.ingestion_embedding_model = "text-embedding-ada-002".data := by
  refine ⟨?_, rfl, rfl⟩
  decide

/-- C2 amended: the ingestion path's model is the fixed string
`"text-embedding-ada-002"`, while the query path's model is the environment
variable `EMBEDDING_MODEL` with default `"text-embedding-3-small"`; the two
paths use the same model exactly when the deployment sets `EMBEDDING_MODEL`
to `"text-embedding-ada-002"`. -/
theorem C2_same_model_iff_env (env : List (List Char × List Char)) :
    Main.EMBEDDING_MODEL env = Main.ingestion_embedding_model ↔
    env.lookup "EMBEDDING_MODEL".data = some "text-embedding-ada-002".data := by
  unfold Main.EMBEDDING_MODEL Main.getenv Main.ingestion_embedding_model
  cases h : env.lookup "EMBEDDING_MODEL".data with
  | none =>
    simp only [Option.getD_none]
    exact ⟨fun hc => absurd hc (by decide), fun hc => by cases hc⟩
  | some v =>
    simp only [Option.getD_some, Option.some.injEq]

/-- C7 counterexample: `search_topic_from_index` has no try/except, so a
failing embedding call propagates as an error instead of producing the
fallback message (the claim says a failure yields the fallback and never an
exception). -/
theorem C7_failure_propagates :
    Main.search_topic_from_index (V := Nat)
      (fun _ => Except.error "EmbeddingServiceError".data)
      (fun _ _ => Except.ok []) 3 "query".data =
      Except.error "EmbeddingServiceError".data ∧
    Main.search_topic_from_index (V := Nat)
      (fun _ => Except.error "EmbeddingServiceError".data)
      (fun _ _ => Except.ok []) 3 "query".data ≠
      Except.ok "関連トピックが見つかりませんでした。".data := by
  have h1 : Main.search_topic_from_index (V := Nat)
      (fun _ => Except.error "EmbeddingServiceError".data)
      (fun _ _ => Except.ok []) 3 "query".data =
      Except.error "EmbeddingServiceError".data := rfl
  exact ⟨h1, by simp [h1]⟩

/-- C7 amended: when the embedding call and the index query both succeed,
`search_topic_from_index` returns the matches' stored chunk texts joined by
the visible separator `"\n---\n"` in the order the index returned them, and
returns the fixed non-empty fallback message on an empty match set; failures
of either external call propagate as errors (they are not converted to the
fallback). -/
theorem C7_success_behavior {V : Type}
    (embed_query : List Char → Except (List Char) V)
    (query : V → Nat → Except (List Char) (List Main.QueryMatch))
    (TOP_K : Nat) (q : List Char) (v : V) (ms : List Main.QueryMatch)
    (h1 : embed_query q = Except.ok v) (h2 : query v TOP_K = Except.ok ms) :
    Main.search_topic_from_index embed_query query TOP_K q =
      Except.ok (if ms.isEmpty then "関連トピックが見つかりませんでした。".data
        else List.intercalate "\n---\n".data (ms.map Main.QueryMatch.md_text)) ∧
    "関連トピックが見つかりませんでした。".data ≠ ([] : List Char) ∧
    (ms = [] → Main.search_topic_from_index embed_query query TOP_K q =
      Except.ok "関連トピックが見つかりませんでした。".data) := by
  refine ⟨?_, by decide, ?_⟩
  · simp only [Main.search_topic_from_index, h1, h2, bind, Except.bind, pure, Except.pure]
    by_cases he : ms.isEmpty <;> simp [he]
  · rintro rfl
    simp [Main.search_topic_from_index, h1, h2, bind, Except.bind, pure, Except.pure]

/-- Witness for C7's amended theorem at a concrete succeeding embedder and
an index returning no matches. -/
theorem C7_success_behavior_witness :
    ((fun _ : List Char => (Except.ok 0 : Except (List Char) Nat)) "q".data = Except.ok 0) ∧
    ((fun (_ : Nat) (_ : Nat) =>
        (Except.ok [] : Except (List Char) (List Main.QueryMatch))) 0 3 = Except.ok []) ∧
    (Main.search_topic_from_index
        (fun _ : List Char => (Except.ok 0 : Except (List Char) Nat))
        (fun _ _ => (Except.ok [] : Except (List Char) (List Main.QueryMatch)))
        3 "q".data =
      Except.ok (if ([] : List Main.QueryMatch).isEmpty then
          "関連トピックが見つかりませんでした。".data
        else List.intercalate "\n---\n".data
          (([] : List Main.QueryMatch).map Main.QueryMatch.md_text)) ∧
    "関連トピックが見つかりませんでした。".data ≠ ([] : List Char) ∧
    (([] : List Main.QueryMatch) = [] →
      Main.search_topic_from_index
        (fun _ : List Char => (Except.ok 0 : Except (List Char) Nat))
        (fun _ _ => (Except.ok [] : Except (List Char) (List Main.QueryMatch)))
        3 "q".data =
      Except.ok "関連トピックが見つかりませんでした。".data)) :=
  ⟨rfl, rfl, C7_success_behavior _ _ 3 "q".data 0 [] rfl rfl⟩

/-- C8 counterexample: the guard in `search_name_and_company` is
`if not name and not company_name`, so with `name = ""` and a non-empty
`company_name` the tool does NOT return the "no search performed" fallback:
it invokes the external search collaborator (two collaborators returning
different items yield different outputs) and renders its items. -/
theorem C8_empty_name_still_searches :
    Main.search_name_and_company (fun _ _ => [⟨"T".data, "L".data⟩]) 3
      [] "Acme".data = "- T: L".data ∧
    Main.search_name_and_company (fun _ _ => [⟨"T".data, "L".data⟩]) 3
      [] "Acme".data ≠
      "検索結果がありませんでした。名前と会社名が指定されていません。".data ∧
    Main.search_name_and_company (fun _ _ => [⟨"T".data, "L".data⟩]) 3
      [] "Acme".data ≠
      Main.search_name_and_company (fun _ _ => []) 3 [] "Acme".data := by
  refine ⟨by decide, by decide, by decide⟩

/-- C8 amended: the lookup tool returns its "no search performed" fallback,
without consulting the external search collaborator, exactly when BOTH
`name` and `company_name` are empty; when at least one is non-empty it
queries the collaborator with the stripped combined string and, if the
result list is non-empty, renders each result as `- title: link` joined by
newlines. -/
theorem C8_guard_requires_both_empty (cse cse2 : List Char → Nat → List Main.CSEItem)
    (num : Nat) (name company_name : List Char) :
    (name = [] ∧ company_name = [] →
      Main.search_name_and_company cse num name company_name =
        "検索結果がありませんでした。名前と会社名が指定されていません。".data ∧
      Main.search_name_and_company cse num name company_name =
        Main.search_name_and_company cse2 num name company_name) ∧
    (¬ (name = [] ∧ company_name = []) →
      cse (pyStrip (name ++ [' '] ++ company_name)) num ≠ [] →
      Main.search_name_and_company cse num name company_name =
        List.intercalate ['\n']
          ((cse (pyStrip (name ++ [' '] ++ company_name)) num).map
            (fun i => "- ".data ++ i.title ++ ": ".data ++ i.link))) := by
  constructor
  · intro h
    simp [Main.search_name_and_company, h.1, h.2]
  · intro h hne
    simp only [Main.search_name_and_company, if_neg h]
    exact if_neg hne

/-- Witness for C8's amended theorem with both inputs non-empty and one
search result. -/
theorem C8_guard_requires_both_empty_witness :
    (¬ ("Alice".data = ([] : List Char) ∧ "Acme".data = ([] : List Char))) ∧
    ((fun (_ : List Char) (_ : Nat) => [(⟨"T".data, "L".data⟩ : Main.CSEItem)])
      (pyStrip ("Alice".data ++ [' '] ++ "Acme".data)) 3 ≠ []) ∧
    Main.search_name_and_company
      (fun _ _ => [(⟨"T".data, "L".data⟩ : Main.CSEItem)]) 3
      "Alice".data "Acme".data =
      List.intercalate ['\n']
        (((fun (_ : List Char) (_ : Nat) => [(⟨"T".data, "L".data⟩ : Main.CSEItem)])
          (pyStrip ("Alice".data ++ [' '] ++ "Acme".data)) 3).map
          (fun i => "- ".data ++ i.title ++ ": ".data ++ i.link)) :=
  ⟨by decide, by decide,
    (C8_guard_requires_both_empty _ (fun _ _ => []) 3 "Alice".data "Acme".data).2
      (by decide) (by decide)⟩

/-- C9 counterexample: with an extraction result holding `name` and
`company_name` but missing `position`, the `/upload` handler returns the
error message that joins ALL of `required_fields` (including the fields
that are present), not exactly the missing ones (`["position"]`). -/
theorem C9_error_names_all_fields :
    Main.upload_validate "SUMMARY".data ["name".data, "company_name".data] =
      .error ("名刺情報から以下の項目を取得できませんでした: ".data ++
        List.intercalate ", ".data Main.required_fields) ∧
    Main.missing_fields ["name".data, "company_name".data] = ["position".data] ∧
    List.intercalate ", ".data Main.required_fields ≠
      List.intercalate ", ".data
        (Main.missing_fields ["name".data, "company_name".data]) := by
  refine ⟨by decide, by decide, by decide⟩

/-- C9 amended: when any required field is absent from the extracted dict,
the `/upload` handler returns a validation error naming the full fixed list
`name, company_name, position` (whether or not each is missing), and it does
not run the Agent (the outcome is independent of what the agent would
produce). -/
theorem C9_validation_skips_agent (agent1 agent2 : List Char)
    (info_keys : List (List Char))
    (h : ¬ Main.required_fields.all (fun field => info_keys.contains field) = true) :
    Main.upload_validate agent1 info_keys =
      .error ("名刺情報から以下の項目を取得できませんでした: ".data ++
        List.intercalate ", ".data Main.required_fields) ∧
    Main.upload_validate agent1 info_keys = Main.upload_validate agent2 info_keys := by
  unfold Main.upload_validate
  rw [if_neg h, if_neg h]
  exact ⟨rfl, rfl⟩

/-- Witness for C9's amended theorem with only `position` missing. -/
theorem C9_validation_skips_agent_witness :
    (¬ Main.required_fields.all
      (fun field => ["name".data, "company_name".data].contains field) = true) ∧
    (Main.upload_validate "A".data ["name".data, "company_name".data] =
      .error ("名刺情報から以下の項目を取得できませんでした: ".data ++
        List.intercalate ", ".data Main.required_fields) ∧
    Main.upload_validate "A".data ["name".data, "company_name".data] =
      Main.upload_validate "B".data ["name".data, "company_name".data]) :=
  ⟨by decide, C9_validation_skips_agent "A".data "B".data
    ["name".data, "company_name".data] (by decide)⟩

/-- C3 counterexample: the indexer that `main.py` runs at startup
(`upsert_topics.py`) builds the id `f"{file_name}-chunk{idx+1}"` with NO
data-category prefix, and its metadata carries no category field, so for a
document `doc.md` in the topic category the record id is `doc.md-chunk1`,
not `topic-doc.md-chunk1`. -/
theorem C3_id_lacks_category :
    (UpsertTopics.process_md (fun _ => (0 : Nat)) "doc.md".data "x".data).map
      TopicsVector.id = ["doc.md-chunk1".data] ∧
    "doc.md-chunk1".data ≠ "topic-doc.md-chunk1".data := by
  refine ⟨by decide, by decide⟩

/-- C3 amended: `upsert.py`'s `process_md` builds records whose id is
`{data_category}-{source_document}-chunk{i}` (1-based `i`) with metadata
carrying the chunk text, source name, sequence index and category; but the
indexer invoked at startup (`upsert_topics.py`'s `process_md`) builds the id
`{source_document}-chunk{i}` without the category, and its metadata carries
only the chunk text, source name and sequence index. -/
theorem C3_record_shape {V : Type} (embed : List Char → V)
    (file_name md_text data_type : List Char) (i : Nat)
    (h1 : i < (UpsertTopics.process_md embed file_name md_text).length)
    (h2 : i < (Upsert.process_md embed file_name md_text data_type).length) :
    ((UpsertTopics.process_md embed file_name md_text).get ⟨i, h1⟩).id =
      file_name ++ "-chunk".data ++ natToDec (i + 1) ∧
    ((UpsertTopics.process_md embed file_name md_text).get ⟨i, h1⟩).md_source =
      file_name ∧
    ((UpsertTopics.process_md embed file_name md_text).get ⟨i, h1⟩).md_chunk_index =
      i + 1 ∧
    ((UpsertTopics.process_md embed file_name md_text).get ⟨i, h1⟩).md_text =
      (chunk_text (markdown_to_plain md_text) 500).getD i [] ∧
    ((Upsert.process_md embed file_name md_text data_type).get ⟨i, h2⟩).id =
      data_type ++ "-".data ++ file_name ++ "-chunk".data ++ natToDec (i + 1) ∧
    ((Upsert.process_md embed file_name md_text data_type).get ⟨i, h2⟩).md_source =
      file_name ∧
    ((Upsert.process_md embed file_name md_text data_type).get ⟨i, h2⟩).md_chunk_index =
      i + 1 ∧
    ((Upsert.process_md embed file_name md_text data_type).get ⟨i, h2⟩).md_text =
      (chunk_text (markdown_to_plain md_text) 500).getD i [] ∧
    ((Upsert.process_md embed file_name md_text data_type).get ⟨i, h2⟩).md_data_type =
      data_type := by
  have hc : i < (chunk_text (markdown_to_plain md_text) 500).length := by
    simpa [UpsertTopics.process_md] using h1
  simp only [UpsertTopics.process_md, Upsert.process_md, List.get_eq_getElem,
    List.getElem_map, List.getElem_enum, List.getD_eq_getElem _ _ hc]
  refine ⟨?_, ?_, ?_, ?_, ?_, ?_, ?_, ?_, ?_⟩ <;> first | rfl | trivial

/-- Witness for C3's amended theorem on a one-chunk document. -/
theorem C3_record_shape_witness :
    (0 < (UpsertTopics.process_md (fun _ => (0 : Nat)) "doc.md".data "x".data).length) ∧
    (0 < (Upsert.process_md (fun _ => (0 : Nat)) "doc.md".data "x".data
      "booth".data).length) ∧
    (((UpsertTopics.process_md (fun _ => (0 : Nat)) "doc.md".data "x".data).get
        ⟨0, by decide⟩).id = "doc.md".data ++ "-chunk".data ++ natToDec (0 + 1) ∧
    ((UpsertTopics.process_md (fun _ => (0 : Nat)) "doc.md".data "x".data).get
        ⟨0, by decide⟩).md_source = "doc.md".data ∧
    ((UpsertTopics.process_md (fun _ => (0 : Nat)) "doc.md".data "x".data).get
        ⟨0, by decide⟩).md_chunk_index = 0 + 1 ∧
    ((UpsertTopics.process_md (fun _ => (0 : Nat)) "doc.md".data "x".data).get
        ⟨0, by decide⟩).md_text =
      (chunk_text (markdown_to_plain "x".data) 500).getD 0 [] ∧
    ((Upsert.process_md (fun _ => (0 : Nat)) "doc.md".data "x".data "booth".data).get
        ⟨0, by decide⟩).id =
      "booth".data ++ "-".data ++ "doc.md".data ++ "-chunk".data ++ natToDec (0 + 1) ∧
    ((Upsert.process_md (fun _ => (0 : Nat)) "doc.md".data "x".data "booth".data).get
        ⟨0, by decide⟩).md_source = "doc.md".data ∧
    ((Upsert.process_md (fun _ => (0 : Nat)) "doc.md".data "x".data "booth".data).get
        ⟨0, by decide⟩).md_chunk_index = 0 + 1 ∧
    ((Upsert.process_md (fun _ => (0 : Nat)) "doc.md".data "x".data "booth".data).get
        ⟨0, by decide⟩).md_text =
      (chunk_text (markdown_to_plain "x".data) 500).getD 0 [] ∧
    ((Upsert.process_md (fun _ => (0 : Nat)) "doc.md".data "x".data "booth".data).get
        ⟨0, by decide⟩).md_data_type = "booth".data) :=
  ⟨by decide, by decide,
    C3_record_shape (fun _ => (0 : Nat)) "doc.md".data "x".data "booth".data 0
      (by decide) (by decide)⟩

/-- C6 counterexample: the ingestion routine that `main.py` runs at startup
(`upsert_topics.py`, `upsert_topics`) calls `os.listdir(MD_DIR)` with no
existence check, so an absent `topics` directory raises
(`FileNotFoundError`) instead of being skipped with a warning. -/
theorem C6_absent_dir_raises :
    UpsertTopics.upsert_topics (fun _ => (0 : Nat)) none =
      Except.error "FileNotFoundError".data ∧
    UpsertTopics.upsert_topics (fun _ => (0 : Nat)) none ≠
      Except.ok (UpsertTopics.collect_vectors (fun _ => (0 : Nat)) []) := by
  exact ⟨rfl, by simp [UpsertTopics.upsert_topics]⟩

/-- C6 amended: `upsert.py`'s `process_directory` does skip an absent
directory, producing no records and continuing (a warning is logged);
but the single-index indexer actually invoked at startup
(`upsert_topics.py`'s `upsert_topics`) raises an error when its directory
is absent. -/
theorem C6_skip_vs_raise {V : Type} (embed : List Char → V) (data_type : List Char) :
    Upsert.process_directory embed data_type none = [] ∧
    UpsertTopics.upsert_topics embed none = Except.error "FileNotFoundError".data := by
  exact ⟨rfl, rfl⟩

-- ---------------------------------------------------------------------------
-- Facts about pyStrip and markdown_to_plain
-- ---------------------------------------------------------------------------

theorem head?_dropWhile_false {α : Type} (p : α → Bool) (l : List α) (c : α)
    (h : (l.dropWhile p).head? = some c) : p c = false := by
  induction l with
  | nil => simp [List.dropWhile] at h
  | cons x xs ih =>
    rw [List.dropWhile_cons] at h
    by_cases hp : p x
    · rw [if_pos hp] at h; exact ih h
    · rw [if_neg hp] at h
      simp only [List.head?_cons, Option.some.injEq] at h
      subst h
      simpa using hp

theorem mem_pyStrip {c : Char} {l : List Char} (h : c ∈ pyStrip l) : c ∈ l := by
  unfold pyStrip at h
  rw [List.mem_reverse] at h
  have h1 := (List.dropWhile_sublist isPySpace).subset h
  rw [List.mem_reverse] at h1
  exact (List.dropWhile_sublist isPySpace).subset h1

theorem pyStrip_head (l : List Char) (c : Char) (h : (pyStrip l).head? = some c) :
    isPySpace c = false := by
  unfold pyStrip at h
  have hsuf : (l.dropWhile isPySpace).reverse.dropWhile isPySpace <:+
      (l.dropWhile isPySpace).reverse := List.dropWhile_suffix isPySpace
  have hpre := (List.reverse_prefix).mpr hsuf
  rw [List.reverse_reverse] at hpre
  obtain ⟨t, ht⟩ := hpre
  cases hcase : ((l.dropWhile isPySpace).reverse.dropWhile isPySpace).reverse with
  | nil => rw [hcase] at h; simp at h
  | cons x xs =>
    rw [hcase] at h ht
    simp only [List.head?_cons, Option.some.injEq] at h
    rw [← h]
    have hx : (l.dropWhile isPySpace).head? = some x := by
      rw [← ht]; rfl
    exact head?_dropWhile_false isPySpace l x hx

theorem pyStrip_getLast (l : List Char) (c : Char)
    (h : (pyStrip l).getLast? = some c) : isPySpace c = false := by
  unfold pyStrip at h
  rw [List.getLast?_reverse] at h
  exact head?_dropWhile_false isPySpace _ c h

theorem markdown_to_plain_no_newline (md : List Char) : '\n' ∉ markdown_to_plain md := by
  intro hmem
  have h1 := mem_pyStrip hmem
  rw [List.mem_map] at h1
  obtain ⟨a, -, ha⟩ := h1
  by_cases hn : a = '\n'
  · rw [if_pos hn] at ha; cases ha
  · rw [if_neg hn] at ha; exact hn ha

/-- C5 counterexample: `markdown_to_plain` replaces each newline with ONE
space and does not collapse whitespace runs: `"a\n\nb"` normalizes to
`"a  b"` (two spaces), not to the single-spaced `"a b"` the claim's
collapse-all-runs rule would produce. -/
theorem C5_runs_not_collapsed :
    markdown_to_plain "a\n\nb".data = "a  b".data ∧
    "a  b".data ≠ "a b".data := by
  refine ⟨by decide, by decide⟩

/-- C5 amended: the normalization strips markup tags, replaces EACH newline
character with a single space (it does not collapse runs of whitespace), and
trims leading and trailing whitespace — so no newline survives and the
result neither starts nor ends with whitespace; the claim's example still
holds: `"<b>Alice</b>\nCTO"` normalizes to `"Alice CTO"`, and chunking that
with `max_chars = 500` yields exactly that one chunk. -/
theorem C5_normalization (md : List Char) :
    '\n' ∉ markdown_to_plain md ∧
    (∀ c, (markdown_to_plain md).head? = some c → isPySpace c = false) ∧
    (∀ c, (markdown_to_plain md).getLast? = some c → isPySpace c = false) ∧
    markdown_to_plain "<b>Alice</b>\nCTO".data = "Alice CTO".data ∧
    chunk_text "Alice CTO".data 500 = ["Alice CTO".data] := by
  refine ⟨markdown_to_plain_no_newline md, ?_, ?_, by decide, by decide⟩
  · exact fun c => pyStrip_head _ c
  · exact fun c => pyStrip_getLast _ c

/-- Witness for C5's amended theorem: at the example input the first
character is `'A'` and the last is `'O'`, neither whitespace. -/
theorem C5_normalization_witness :
    ((markdown_to_plain "<b>Alice</b>\nCTO".data).head? = some 'A') ∧
    isPySpace 'A' = false ∧
    ((markdown_to_plain "<b>Alice</b>\nCTO".data).getLast? = some 'O') ∧
    isPySpace 'O' = false :=
  ⟨by decide,
    (C5_normalization "<b>Alice</b>\nCTO".data).2.1 'A' (by decide),
    by decide,
    (C5_normalization "<b>Alice</b>\nCTO".data).2.2.1 'O' (by decide)⟩

-- ---------------------------------------------------------------------------
-- Id uniqueness machinery for the ingestion run (C4)
-- ---------------------------------------------------------------------------

/-- The id `f"{file_name}-chunk{n}"` built by `upsert_topics.py`. -/
def mkId (file_name : List Char) (n : Nat) : List Char :=
  file_name ++ "-chunk".data ++ natToDec n

/-- If two digit-prefixed strings agree and each continuation starts with a
non-digit, the digit prefixes agree (and hence the continuations too). -/
theorem digit_prefix_eq : ∀ (d1 x1 d2 x2 : List Char),
    (∀ c ∈ d1, c.isDigit = true) → (∀ c ∈ d2, c.isDigit = true) →
    (∀ c, x1.head? = some c → c.isDigit = false) →
    (∀ c, x2.head? = some c → c.isDigit = false) →
    d1 ++ x1 = d2 ++ x2 → d1 = d2 := by
  intro d1
  induction d1 with
  | nil =>
    intro x1 d2 x2 _ h2 hx1 _ heq
    cases d2 with
    | nil => rfl
    | cons b bs =>
      exfalso
      simp only [List.nil_append, List.cons_append] at heq
      have hb : x1.head? = some b := by rw [heq]; rfl
      have := hx1 b hb
      have := h2 b (by simp)
      simp_all
  | cons a as ih =>
    intro x1 d2 x2 h1 h2 hx1 hx2 heq
    cases d2 with
    | nil =>
      exfalso
      simp only [List.nil_append, List.cons_append] at heq
      have ha : x2.head? = some a := by rw [← heq]; rfl
      have := hx2 a ha
      have := h1 a (by simp)
      simp_all
    | cons b bs =>
      simp only [List.cons_append, List.cons.injEq] at heq
      obtain ⟨rfl, heq2⟩ := heq
      rw [ih x1 bs x2 (fun c hc => h1 c (by simp [hc]))
        (fun c hc => h2 c (by simp [hc])) hx1 hx2 heq2]

/-- The ids `f"{file_name}-chunk{n}"` are injective in (file name, n),
because the decimal suffix is delimited by the non-digit `'k'` of
`"-chunk"`. -/
theorem mkId_inj (f g : List Char) (i j : Nat) (h : mkId f i = mkId g j) :
    f = g ∧ i = j := by
  have hrev := congrArg List.reverse h
  unfold mkId at hrev
  rw [List.reverse_append, List.reverse_append, List.reverse_append,
    List.reverse_append] at hrev
  have hdigits1 : ∀ c ∈ (natToDec i).reverse, c.isDigit = true := by
    intro c hc; exact natToDec_digits i c (List.mem_reverse.mp hc)
  have hdigits2 : ∀ c ∈ (natToDec j).reverse, c.isDigit = true := by
    intro c hc; exact natToDec_digits j c (List.mem_reverse.mp hc)
  have hhead1 : ∀ c, ("-chunk".data.reverse ++ f.reverse).head? = some c →
      c.isDigit = false := by
    intro c hc
    have : ("-chunk".data.reverse ++ f.reverse).head? = some 'k' := rfl
    rw [this] at hc
    cases hc
    decide
  have hhead2 : ∀ c, ("-chunk".data.reverse ++ g.reverse).head? = some c →
      c.isDigit = false := by
    intro c hc
    have : ("-chunk".data.reverse ++ g.reverse).head? = some 'k' := rfl
    rw [this] at hc
    cases hc
    decide
  have hdec := digit_prefix_eq _ _ _ _ hdigits1 hdigits2 hhead1 hhead2 hrev
  have hij : i = j := natToDec_inj (List.reverse_injective hdec)
  subst hij
  refine ⟨?_, rfl⟩
  unfold mkId at h
  have h1 := List.append_cancel_right h
  exact List.append_cancel_right h1

/-- The id list `process_md` produces for one file depends only on the file
name and the number of chunks — not on the embedding service's outputs. -/
theorem process_md_ids {V : Type} (embed : List Char → V) (fn md : List Char) :
    (UpsertTopics.process_md embed fn md).map TopicsVector.id =
    (List.range (chunk_text (markdown_to_plain md) 500).length).map
      (fun i => mkId fn (i + 1)) := by
  simp only [UpsertTopics.process_md, List.map_map]
  rw [← List.enum_map_fst (chunk_text (markdown_to_plain md) 500), List.map_map]
  rfl

/-- Flattened id lists over files with pairwise-distinct names have no
duplicates. -/
theorem nodup_flatMap_mkId {α : Type} (key : α → List Char) (n : α → Nat) :
    ∀ fs : List α, (fs.map key).Nodup →
    (fs.flatMap (fun f => (List.range (n f)).map (fun i => mkId (key f) (i + 1)))).Nodup := by
  intro fs
  induction fs with
  | nil => simp
  | cons f rest ih =>
    intro h
    rw [List.map_cons, List.nodup_cons] at h
    rw [List.flatMap_cons, List.nodup_append]
    refine ⟨?_, ih h.2, ?_⟩
    · refine List.Nodup.map_on ?_ (List.nodup_range _)
      intro x hx y hy hxy
      have := (mkId_inj _ _ _ _ hxy).2
      omega
    · intro a ha hb
      rw [List.mem_map] at ha
      obtain ⟨i, hi, rfl⟩ := ha
      rw [List.mem_flatMap] at hb
      obtain ⟨g, hg, hgb⟩ := hb
      rw [List.mem_map] at hgb
      obtain ⟨j, hj, hj2⟩ := hgb
      have hkey := (mkId_inj _ _ _ _ hj2).1
      exact h.1 (hkey ▸ List.mem_map_of_mem key hg)

/-- C4: within one ingestion run (`upsert_topics.py`) over a directory
listing with pairwise-distinct file names, the produced Vector Record ids
are pairwise distinct; and a second run over the unchanged listing — even
with a different embedding service — produces exactly the same id list
(re-indexing is idempotent on ids). -/
theorem C4_ids_nodup_idempotent {V W : Type} (embed1 : List Char → V)
    (embed2 : List Char → W) (files : List (List Char × List Char))
    (hnd : (files.map Prod.fst).Nodup) :
    ((UpsertTopics.collect_vectors embed1 files).map TopicsVector.id).Nodup ∧
    (UpsertTopics.collect_vectors embed1 files).map TopicsVector.id =
      (UpsertTopics.collect_vectors embed2 files).map TopicsVector.id := by
  have hform : ∀ (X : Type) (embed : List Char → X),
      (UpsertTopics.collect_vectors embed files).map TopicsVector.id =
      (files.filter (fun f => endsWithMd f.1)).flatMap
        (fun f => (List.range (chunk_text (markdown_to_plain f.2) 500).length).map
          (fun i => mkId f.1 (i + 1))) := by
    intro X embed
    unfold UpsertTopics.collect_vectors
    rw [List.map_flatMap]
    congr 1
    funext f
    exact process_md_ids embed f.1 f.2
  have hndf : ((files.filter (fun f => endsWithMd f.1)).map Prod.fst).Nodup :=
    ((List.filter_sublist files).map Prod.fst).nodup hnd
  constructor
  · rw [hform V embed1]
    exact nodup_flatMap_mkId Prod.fst
      (fun f => (chunk_text (markdown_to_plain f.2) 500).length) _ hndf
  · rw [hform V embed1, hform W embed2]

/-- Witness for C4 over a concrete two-file directory. -/
theorem C4_ids_nodup_idempotent_witness :
    (([("a.md".data, "hello".data), ("b.md".data, "hi".data)].map Prod.fst).Nodup) ∧
    (((UpsertTopics.collect_vectors (fun _ => (0 : Nat))
        [("a.md".data, "hello".data), ("b.md".data, "hi".data)]).map
        TopicsVector.id).Nodup ∧
    (UpsertTopics.collect_vectors (fun _ => (0 : Nat))
        [("a.md".data, "hello".data), ("b.md".data, "hi".data)]).map
        TopicsVector.id =
      (UpsertTopics.collect_vectors (fun _ => true)
        [("a.md".data, "hello".data), ("b.md".data, "hi".data)]).map
        TopicsVector.id) :=
  ⟨by decide, C4_ids_nodup_idempotent (fun _ => (0 : Nat)) (fun _ => true)
    [("a.md".data, "hello".data), ("b.md".data, "hi".data)] (by decide)⟩
